import Mathlib

/-!
# Verification of the ESP32 OTA firmware server (Node.js/Express)

Shallow embedding of the core logic of `index.js` (local-filesystem variant)
and of the S3 variant of the same server shipped alongside it.  HTTP
transport, logging and process wiring are abstracted away; each Express
handler becomes a pure Lean function from the request, the in-memory server
state (`devicesDb`, `AVAILABLE_FIRMWARE`) and an explicit model of the blob
store / network to a response, a new state and (where relevant) the list of
blob-store operations performed.

JavaScript string comparison (`<` on strings, and the default comparator of
`Array.prototype.sort()`) compares strings code unit by code unit, with a
strict prefix smaller than any extension.  `ltChars` below implements
exactly that over the character lists of Lean strings (on the ASCII version
strings and keys used by this server, UTF-16 code-unit order and code-point
order coincide).
-/

namespace OTA

/-- JS string `<`: lexicographic comparison, code unit by code unit; a
strict prefix is smaller than any extension. -/
def ltChars : List Char → List Char → Bool
  | _, [] => false
  | [], _ :: _ => true
  | a :: as, b :: bs =>
      if a < b then true else if b < a then false else ltChars as bs

/-- `a < b` on JS strings. -/
def jsLt (a b : String) : Bool := ltChars a.data b.data

/-- `!(b < a)`: the "not greater" relation under which the JS default sort
orders its output ascending. -/
def jsLe (a b : String) : Bool := !(jsLt b a)

/-- The sort relation as a `Prop`-valued relation, for `List.insertionSort`. -/
def jsLeRel : String → String → Prop := fun a b => jsLe a b = true

instance : DecidableRel jsLeRel := fun a b => instDecidableEqBool (jsLe a b) true

/-- `FirmwareRelease`: one entry of `AVAILABLE_FIRMWARE` in `index.js` —
`{ filename, release_date, changelog, mandatory }`. -/
structure FirmwareRelease where
  filename : String
  release_date : String
  changelog : String
  mandatory : Bool
  deriving Repr, DecidableEq

/-- The `AVAILABLE_FIRMWARE` object: a mapping from version string to
`FirmwareRelease`, modelled as an association list (JS object keys are
unique; assignment of a fresh key appends it). -/
abbrev Catalog := List (String × FirmwareRelease)

/-- JS property write `obj[key] = value` (used for `AVAILABLE_FIRMWARE` and
`devicesDb`): overwrite the existing binding, else append. -/
def setKey {α : Type} (l : List (String × α)) (k : String) (v : α) :
    List (String × α) :=
  match l with
  | [] => [(k, v)]
  | (k', v') :: rest =>
      if k' = k then (k, v) :: rest else (k', v') :: setKey rest k v

/-- JS property read `obj[key]`: the binding of the key, `none` when absent
(JS `undefined`). -/
def getKey {α : Type} (l : List (String × α)) (k : String) : Option α :=
  match l with
  | [] => none
  | (k', v') :: rest => if k' = k then some v' else getKey rest k

/-- `AVAILABLE_FIRMWARE[version]`. -/
def catGet (c : Catalog) (v : String) : Option FirmwareRelease :=
  getKey c v

/-- `Object.keys(AVAILABLE_FIRMWARE)`. -/
def keys (c : Catalog) : List String := c.map Prod.fst

/-- `Object.keys(AVAILABLE_FIRMWARE).sort()`: the JS default sort orders
the keys ascending under raw lexicographic string comparison. -/
def sortKeys (l : List String) : List String :=
  List.insertionSort jsLeRel l

/-- `versions[versions.length - 1]` after the sort: the last element of the
sorted key list, i.e. the catalog's `latest()` version; `none` on an empty
catalog (JS would yield `undefined`, unreachable in the program: the catalog
starts with two entries and only grows). -/
def latestKey (c : Catalog) : Option String :=
  (sortKeys (keys c)).getLast?

/-- JS truthiness test used on query/body string fields: `!x` is true when
the field is absent (`undefined`) or the empty string. -/
def jsPresent : Option String → Bool
  | none => false
  | some s => !s.isEmpty

/-- One entry of `devicesDb`: `{ last_check, current_version, rssi }`.
`rssi` is `null` when the query parameter is absent (the transport-level
`parseInt` of the decimal query string is applied before this model). -/
structure DeviceRecord where
  last_check : String
  current_version : String
  rssi : Option Int
  deriving Repr, DecidableEq

/-- The mutable in-memory state of the server: `devicesDb` and
`AVAILABLE_FIRMWARE`. -/
structure ServerState where
  devicesDb : List (String × DeviceRecord)
  availableFirmware : Catalog
  deriving Repr, DecidableEq

/-- Observable content of a file of the local blob store (`../firmware`):
its MD5 hex digest (what `calculateMd5` computes) and byte size (what
`getFileSize` reads). -/
structure FileInfo where
  md5 : String
  size : Nat
  deriving Repr, DecidableEq

/-- The local-filesystem blob store: the set of files present in the
firmware directory, keyed by filename. -/
structure BlobStore where
  files : List (String × FileInfo)
  deriving Repr, DecidableEq

/-- `fs.existsSync(path.join(FIRMWARE_DIR, filename))`. -/
def BlobStore.existsFile (b : BlobStore) (f : String) : Bool :=
  (getKey b.files f).isSome

/-- Blob-store operations a handler can perform, recorded as an effect
trace: `fs.existsSync`, `calculateMd5` (full content read + hash) and
`getFileSize` (`fs.statSync`). -/
inductive BlobOp
  | existsCheck (filename : String)
  | checksum (filename : String)
  | sizeQuery (filename : String)
  deriving Repr, DecidableEq

/-- Query parameters of `GET /api/v1/firmware/check`.  `model` defaults to
"ESP32" in the handler and is never used by the decision logic. -/
structure CheckRequest where
  device : Option String
  version : Option String
  model : Option String := none
  rssi : Option Int := none
  deriving Repr, DecidableEq

/-- JSON body of a 200 response of the check endpoint.  The
up-to-date body carries no `changelog`/`file_size` fields (`none`); the
update-available body carries both. -/
structure CheckBody where
  update_available : Bool
  latest_version : String
  download_url : String
  checksum : String
  mandatory : Bool
  changelog : Option String
  file_size : Option Nat
  deriving Repr, DecidableEq

/-- Response of the check endpoint. -/
inductive CheckResponse
  | missingParam
  | ok (b : CheckBody)
  | notFound (detail : String)
  | serverError (detail : String)
  deriving Repr, DecidableEq

/-- HTTP status of each check response. -/
def CheckResponse.status : CheckResponse → Nat
  | .missingParam => 400
  | .ok _ => 200
  | .notFound _ => 404
  | .serverError _ => 500

/-- `GET /api/v1/firmware/check` (local-filesystem variant, `index.js`
lines 110–186), entered after `verifyApiKey` has passed.  `now` stands for
`new Date().toISOString()`, `proto`/`host` for the forwarded-protocol and
host headers.  Returns the response, the new server state and the trace of
blob-store operations performed. -/
def firmwareCheck (st : ServerState) (blob : BlobStore) (req : CheckRequest)
    (now proto host : String) : CheckResponse × ServerState × List BlobOp :=
  match req.device, req.version with
  | some device, some version =>
    if device.isEmpty || version.isEmpty then
      (.missingParam, st, [])
    else
      -- Store device info (runs on every call that passes the parameter check)
      let st' : ServerState :=
        { st with devicesDb := setKey st.devicesDb device ⟨now, version, req.rssi⟩ }
      match latestKey st.availableFirmware with
      | none =>
          -- Unreachable: the catalog starts with two entries and only grows;
          -- JS would read `versions[-1] = undefined` here.
          (.serverError "empty catalog", st', [])
      | some latestVersion =>
        match catGet st.availableFirmware latestVersion with
        | none =>
            -- Unreachable: `latestVersion` is always a key of the catalog.
            (.serverError "missing latest entry", st', [])
        | some latestInfo =>
          let needsUpdate := jsLt version latestVersion
          if !needsUpdate then
            (.ok ⟨false, latestVersion, "", "", false, none, none⟩, st', [])
          else if !(blob.existsFile latestInfo.filename) then
            (.notFound "Firmware file not found", st',
             [.existsCheck latestInfo.filename])
          else
            match getKey blob.files latestInfo.filename with
            | none =>
                -- Unreachable: the existence check above just succeeded.
                (.serverError "file vanished", st',
                 [.existsCheck latestInfo.filename])
            | some info =>
                let downloadUrl :=
                  proto ++ "://" ++ host ++ "/api/v1/firmware/download/" ++
                    latestVersion
                (.ok ⟨true, latestVersion, downloadUrl, info.md5,
                      latestInfo.mandatory, some latestInfo.changelog,
                      some info.size⟩,
                 st',
                 [.existsCheck latestInfo.filename,
                  .checksum latestInfo.filename,
                  .sizeQuery latestInfo.filename])
  | _, _ => (.missingParam, st, [])

/-- JSON body of `POST /admin/firmware/release`.  `mandatory` defaults to
`false` when absent; the request carries no release-date field. -/
structure ReleaseRequest where
  version : Option String
  filename : Option String
  changelog : Option String
  mandatory : Option Bool := none
  deriving Repr, DecidableEq

/-- Response of the release endpoint.  The success body of the local
variant is `{status:"success", message, version}` (`file_size := none`);
the S3 variant adds `file_size` (`some _`). -/
inductive ReleaseResponse
  | missingFields
  | duplicateVersion
  | artifactMissing
  | success (message : String) (version : String) (file_size : Option Nat)
  deriving Repr, DecidableEq

/-- HTTP status of each release response. -/
def ReleaseResponse.status : ReleaseResponse → Nat
  | .missingFields => 400
  | .duplicateVersion => 400
  | .artifactMissing => 404
  | .success _ _ _ => 200

/-- `POST /admin/firmware/release` (local variant, `index.js` 224–252),
after `verifyApiKey`.  `today` stands for
`new Date().toISOString().split('T')[0]`: the current server-clock date. -/
def firmwareRelease (st : ServerState) (blob : BlobStore)
    (req : ReleaseRequest) (today : String) :
    ReleaseResponse × ServerState :=
  match req.version, req.filename, req.changelog with
  | some version, some filename, some changelog =>
    if version.isEmpty || filename.isEmpty || changelog.isEmpty then
      (.missingFields, st)
    else if (catGet st.availableFirmware version).isSome then
      (.duplicateVersion, st)
    else if !(blob.existsFile filename) then
      (.artifactMissing, st)
    else
      (.success ("Firmware v" ++ version ++ " released") version none,
       { st with
           availableFirmware :=
             setKey st.availableFirmware version
               ⟨filename, today, changelog, req.mandatory.getD false⟩ })
  | _, _, _ => (.missingFields, st)

/-- Response of `GET /api/v1/firmware/download/:version`. -/
inductive DownloadResponse
  | versionNotFound
  | fileNotFound
  | fileStream (filename : String)
  deriving Repr, DecidableEq

/-- `GET /api/v1/firmware/download/:version` (local variant, `index.js`
188–215): a pure read of catalog and blob store; no state change. -/
def firmwareDownload (st : ServerState) (blob : BlobStore)
    (version : String) : DownloadResponse :=
  match catGet st.availableFirmware version with
  | none => .versionNotFound
  | some info =>
      if !(blob.existsFile info.filename) then .fileNotFound
      else .fileStream info.filename

/-! ### The S3 variant of the server

The repository also ships an S3-backed variant of the same server, whose
blob store is a public S3 bucket reached over `https`.  Its network calls
are modelled by explicit outcome values passed into the handler. -/

/-- Outcome of the `https` HEAD request made by `checkS3File`: a response
with its status code and `content-length`/`etag` headers, or the
`.on('error')` path (network failure). -/
inductive HeadOutcome
  | response (statusCode : Nat) (contentLength : Nat) (etag : Option String)
  | netError
  deriving Repr, DecidableEq

/-- The object `checkS3File` resolves: `{exists, size}` (the `etag` field
is never read by any caller). -/
structure S3Meta where
  fileExists : Bool
  size : Nat
  deriving Repr, DecidableEq

/-- `checkS3File(filename)` (S3 variant): resolves `{exists:true, size}` on
HTTP 200; resolves `{exists:false}` on any other status — and also on a
network error, since its error listener calls `resolve({exists:false})`.
It never rejects. -/
def checkS3File : HeadOutcome → S3Meta
  | .response statusCode contentLength _ =>
      if statusCode = 200 then ⟨true, contentLength⟩ else ⟨false, 0⟩
  | .netError => ⟨false, 0⟩

/-- Outcome of the `https` GET made by `calculateS3Md5`: a response with
status code and body bytes, or a network error. -/
inductive GetOutcome
  | response (statusCode : Nat) (body : List Nat)
  | netError
  deriving Repr, DecidableEq

/-- `calculateS3Md5(filename)`: rejects on a non-200 status and on a
network error; otherwise resolves the MD5 hex digest of the streamed body.
The digest function is a parameter abstracting `crypto.createHash('md5')`;
being a function of the body bytes, it is deterministic by construction. -/
def calculateS3Md5 (md5 : List Nat → String) : GetOutcome → Except Unit String
  | .response statusCode body =>
      if statusCode = 200 then .ok (md5 body) else .error ()
  | .netError => .error ()

/-- `getS3Url(filename)`. -/
def getS3Url (filename : String) : String :=
  "https://esp32--firmware.s3.us-east-1.amazonaws.com/" ++ filename

/-- `GET /api/v1/firmware/check` (S3 variant): same logic as the local
variant, but existence/size come from the HEAD request (`head`), the
checksum from the GET request (`getRes`), and the `try/catch` around the
awaited blob work maps a rejection of `calculateS3Md5` to a 500
`"Internal server error"` response. -/
def firmwareCheckS3 (st : ServerState) (req : CheckRequest) (now : String)
    (head : HeadOutcome) (getRes : GetOutcome) (md5 : List Nat → String) :
    CheckResponse × ServerState :=
  match req.device, req.version with
  | some device, some version =>
    if device.isEmpty || version.isEmpty then
      (.missingParam, st)
    else
      let st' : ServerState :=
        { st with devicesDb := setKey st.devicesDb device ⟨now, version, req.rssi⟩ }
      match latestKey st.availableFirmware with
      | none => (.serverError "empty catalog", st')
      | some latestVersion =>
        match catGet st.availableFirmware latestVersion with
        | none => (.serverError "missing latest entry", st')
        | some latestInfo =>
          let needsUpdate := jsLt version latestVersion
          if !needsUpdate then
            (.ok ⟨false, latestVersion, "", "", false, none, none⟩, st')
          else
            let metadata := checkS3File head
            if !metadata.fileExists then
              (.notFound "Firmware file not found", st')
            else
              match calculateS3Md5 md5 getRes with
              | .error _ => (.serverError "Internal server error", st')
              | .ok checksum =>
                  (.ok ⟨true, latestVersion, getS3Url latestInfo.filename,
                        checksum, latestInfo.mandatory,
                        some latestInfo.changelog, some metadata.size⟩, st')
  | _, _ => (.missingParam, st)

/-- `POST /admin/firmware/release` (S3 variant): field and duplicate checks
as in the local variant; existence via `checkS3File`; the success body
additionally carries `file_size: metadata.size`. -/
def firmwareReleaseS3 (st : ServerState) (req : ReleaseRequest)
    (today : String) (head : HeadOutcome) :
    ReleaseResponse × ServerState :=
  match req.version, req.filename, req.changelog with
  | some version, some filename, some changelog =>
    if version.isEmpty || filename.isEmpty || changelog.isEmpty then
      (.missingFields, st)
    else if (catGet st.availableFirmware version).isSome then
      (.duplicateVersion, st)
    else
      let metadata := checkS3File head
      if !metadata.fileExists then
        (.artifactMissing, st)
      else
        (.success ("Firmware v" ++ version ++ " released") version
           (some metadata.size),
         { st with
             availableFirmware :=
               setKey st.availableFirmware version
                 ⟨filename, today, changelog, req.mandatory.getD false⟩ })
  | _, _, _ => (.missingFields, st)

/-! ### Authentication middleware -/

/-- `VALID_API_KEYS` (`new Set(["test123", "prod456"])`). -/
def VALID_API_KEYS : List String := ["test123", "prod456"]

/-- JS `authorization.split(' ')` over the character list: split at every
single space, keeping empty segments (so `"a  b"` yields three parts). -/
def splitSpaces : List Char → List (List Char)
  | [] => [[]]
  | c :: cs =>
      match splitSpaces cs with
      | g :: gs => if c = ' ' then [] :: g :: gs else (c :: g) :: gs
      | [] => [[c]]   -- unreachable: `splitSpaces` never returns `[]`

/-- Result of the `verifyApiKey` middleware. -/
inductive AuthResult
  | noHeader
  | invalidFormat
  | invalidKey
  | authed (apiKey : String)
  deriving Repr, DecidableEq

/-- HTTP status of each middleware outcome (`authed` lets the request
through to the handler; its 200 stands for "not rejected here"). -/
def AuthResult.status : AuthResult → Nat
  | .noHeader => 401
  | .invalidFormat => 401
  | .invalidKey => 403
  | .authed _ => 200

/-- `verifyApiKey` (`index.js` 48–67), generic over the key allow-set.
`toLowerCase` is modelled per character; on a scheme whose lowercase form
is `"bearer"`, JS Unicode lowercasing and per-character lowercasing
agree. -/
def verifyApiKey (validKeys : List String) (authorization : Option String) :
    AuthResult :=
  match authorization with
  | none => .noHeader
  | some auth =>
    if auth.data.isEmpty then .noHeader   -- `!authorization`: "" is falsy in JS
    else
      match splitSpaces auth.data with
      | [scheme, token] =>
          if scheme.map Char.toLower = "bearer".data then
            if validKeys.contains (String.mk token) then
              .authed (String.mk token)
            else .invalidKey
          else .invalidFormat
      | _ => .invalidFormat

/-! ### Request sequences (local variant) -/

/-- One inbound request to the local-variant server, with the ambient
inputs of that call (clock value, blob-store contents) captured in the
operation. -/
inductive Op
  | check (req : CheckRequest) (now proto host : String) (blob : BlobStore)
  | download (version : String) (blob : BlobStore)
  | adminDevices
  | release (req : ReleaseRequest) (today : String) (blob : BlobStore)

/-- State transition of one request: `check` and `release` are the only
handlers that write the state; `download` and `/admin/devices` only
read. -/
def step (st : ServerState) : Op → ServerState
  | .check req now proto host blob => (firmwareCheck st blob req now proto host).2.1
  | .download _ _ => st
  | .adminDevices => st
  | .release req today blob => (firmwareRelease st blob req today).2

/-- Run a sequence of requests from a state. -/
def run (st : ServerState) : List Op → ServerState
  | [] => st
  | op :: ops => run (step st op) ops

/-! ### Concrete fixtures -/

/-- The initial `AVAILABLE_FIRMWARE` of the local variant (`index.js`
22–35). -/
def initialFirmware : Catalog :=
  [("2.2.0", ⟨"meril_01.ino.esp32_v2_2.bin", "2026-01-15",
              "Initial release", false⟩),
   ("2.3.0", ⟨"sketch_feb14a_v2_3.ino.bin", "2026-02-14",
              "Updated version", false⟩)]

/-- The three-release initial catalog of the S3 variant — the catalog of
the spec's scenarios, whose `"2.3.0"` release is mandatory. -/
def catalog3 : Catalog :=
  [("2.2.0", ⟨"meril_01.ino.esp32_v2_2.bin", "2026-01-15",
              "Initial release", false⟩),
   ("2.3.0", ⟨"sketch_feb14a_v2_3.ino.bin", "2026-02-14",
              "Updated version", true⟩),
   ("3.1.0", ⟨"sketch_feb16_3_1.ino.esp32.bin", "2026-02-16",
              "New features and improvements", false⟩)]

end OTA

namespace OTA

/-! ### Order facts about the raw lexicographic comparison -/

theorem ltChars_asymm : ∀ {a b : List Char},
    ltChars a b = true → ltChars b a = false := by
  intro a
  induction a with
  | nil =>
      intro b h
      cases b with
      | nil => simp [ltChars] at h
      | cons y ys => simp [ltChars]
  | cons x xs ih =>
      intro b h
      cases b with
      | nil => simp [ltChars] at h
      | cons y ys =>
          simp only [ltChars] at h ⊢
          by_cases hxy : x < y
          · have hyx : ¬ y < x := lt_asymm hxy
            simp [hxy, hyx]
          · by_cases hyx : y < x
            · simp [hxy, hyx] at h
            · simp only [hxy, hyx, if_false] at h ⊢
              exact ih h

theorem ltChars_trans : ∀ {a b c : List Char},
    ltChars a b = true → ltChars b c = true → ltChars a c = true := by
  intro a
  induction a with
  | nil =>
      intro b c h₁ h₂
      cases c with
      | nil =>
          cases b with
          | nil => simp [ltChars] at h₁
          | cons y ys => simp [ltChars] at h₂
      | cons z zs => simp [ltChars]
  | cons x xs ih =>
      intro b c h₁ h₂
      cases b with
      | nil => simp [ltChars] at h₁
      | cons y ys =>
          cases c with
          | nil => simp [ltChars] at h₂
          | cons z zs =>
              simp only [ltChars] at h₁ h₂ ⊢
              by_cases hxy : x < y
              · by_cases hyz : y < z
                · simp [lt_trans hxy hyz]
                · by_cases hzy : z < y
                  · simp [hyz, hzy] at h₂
                  · have hyz' : y = z := le_antisymm (not_lt.mp hzy) (not_lt.mp hyz)
                    simp [hyz' ▸ hxy]
              · by_cases hyx : y < x
                · simp [hxy, hyx] at h₁
                · have hxy' : x = y := le_antisymm (not_lt.mp hyx) (not_lt.mp hxy)
                  subst hxy'
                  simp only [hxy, if_false, if_neg hyx] at h₁
                  by_cases hyz : x < z
                  · simp [hyz]
                  · by_cases hzy : z < x
                    · simp [hyz, hzy] at h₂
                    · simp only [hyz, hzy, if_false] at h₂ ⊢
                      exact ih h₁ h₂

theorem ltChars_connex : ∀ {a b : List Char},
    ltChars a b = false → ltChars b a = false → a = b := by
  intro a
  induction a with
  | nil =>
      intro b h₁ _
      cases b with
      | nil => rfl
      | cons y ys => simp [ltChars] at h₁
  | cons x xs ih =>
      intro b h₁ h₂
      cases b with
      | nil => simp [ltChars] at h₂
      | cons y ys =>
          simp only [ltChars] at h₁ h₂
          by_cases hxy : x < y
          · simp [hxy] at h₁
          · by_cases hyx : y < x
            · simp [hyx, lt_asymm hyx] at h₂
            · have hxy' : x = y := le_antisymm (not_lt.mp hyx) (not_lt.mp hxy)
              simp only [hxy, hyx, if_false] at h₁ h₂
              rw [hxy', ih h₁ h₂]

theorem ltChars_irrefl : ∀ (a : List Char), ltChars a a = false := by
  intro a
  induction a with
  | nil => rfl
  | cons x xs ih => simp [ltChars, lt_irrefl, ih]

theorem jsLeRel_refl (a : String) : jsLeRel a a := by
  unfold jsLeRel jsLe jsLt
  simp [ltChars_irrefl]

theorem jsLt_asymm {a b : String} (h : jsLt a b = true) : jsLt b a = false :=
  ltChars_asymm h

theorem jsLt_trans {a b c : String} (h₁ : jsLt a b = true)
    (h₂ : jsLt b c = true) : jsLt a c = true :=
  ltChars_trans h₁ h₂

theorem jsLt_connex {a b : String} (h₁ : jsLt a b = false)
    (h₂ : jsLt b a = false) : a = b :=
  String.ext (ltChars_connex h₁ h₂)

instance : IsTotal String jsLeRel := by
  constructor
  intro a b
  unfold jsLeRel jsLe
  by_cases h : jsLt b a = true
  · right
    simp [jsLt_asymm h]
  · left
    simp [Bool.not_eq_true] at h
    simp [h]

instance : IsTrans String jsLeRel := by
  constructor
  intro a b c h₁ h₂
  unfold jsLeRel jsLe at h₁ h₂ ⊢
  simp only [Bool.not_eq_true', Bool.not_eq_true] at h₁ h₂ ⊢
  by_cases hca : jsLt c a = true
  · by_cases hbc : jsLt b c = true
    · exact absurd (jsLt_trans hbc hca) (by simp [h₁])
    · have hbc' : b = c := jsLt_connex (Bool.not_eq_true _ ▸ hbc) h₂
      subst hbc'
      exact absurd hca (by simp [h₁])
  · simpa using hca

/-! ### `latestKey` returns the maximum key -/

theorem mem_of_getLastEq {α : Type} {l : List α} {m : α}
    (h : l.getLast? = some m) : m ∈ l := by
  rcases List.mem_getLast?_eq_getLast (x := m) h with ⟨hne, hx⟩
  rw [hx]
  exact List.getLast_mem hne

theorem Sorted.le_getLast {l : List String} (hs : l.Sorted jsLeRel)
    {x m : String} (hx : x ∈ l) (hm : l.getLast? = some m) : jsLeRel x m := by
  induction l with
  | nil => cases hx
  | cons a t ih =>
      cases t with
      | nil =>
          simp only [List.mem_singleton] at hx
          simp only [List.getLast?_singleton, Option.some.injEq] at hm
          subst hx; subst hm
          exact jsLeRel_refl _
      | cons b t' =>
          have hm' : (b :: t').getLast? = some m := by
            rwa [List.getLast?_cons_cons] at hm
          have hs' : (b :: t').Sorted jsLeRel := hs.of_cons
          rcases List.mem_cons.mp hx with hxa | hxt
          · subst hxa
            have hmmem : m ∈ b :: t' := mem_of_getLastEq hm'
            exact List.rel_of_sorted_cons hs m hmmem
          · exact ih hs' hxt hm'

theorem latestKey_mem {c : Catalog} {m : String} (h : latestKey c = some m) :
    m ∈ keys c := by
  unfold latestKey at h
  have := mem_of_getLastEq h
  rw [sortKeys, List.mem_insertionSort] at this
  exact this

theorem latestKey_isMax {c : Catalog} {m : String} (h : latestKey c = some m) :
    ∀ k ∈ keys c, jsLe k m = true := by
  intro k hk
  unfold latestKey at h
  have hmem : k ∈ sortKeys (keys c) := by
    rw [sortKeys, List.mem_insertionSort]; exact hk
  exact Sorted.le_getLast (List.sorted_insertionSort _ _) hmem h

theorem latestKey_isSome {c : Catalog} (h : c ≠ []) :
    ∃ m, latestKey c = some m := by
  have hk : keys c ≠ [] := by
    intro he
    exact h (List.map_eq_nil_iff.mp he)
  have hs : sortKeys (keys c) ≠ [] := by
    intro he
    have hp : List.Perm (keys c) [] := by
      rw [← he]
      exact (List.perm_insertionSort jsLeRel (keys c)).symm
    exact hk (List.Perm.eq_nil hp)
  exact ⟨_, List.getLast?_eq_getLast_of_ne_nil hs⟩

/-! ### Association-list lemmas -/

theorem getKey_setKey {α : Type} (l : List (String × α)) (k v : String)
    (x : α) :
    getKey (setKey l k x) v = if k = v then some x else getKey l v := by
  induction l with
  | nil =>
      simp only [setKey, getKey]
  | cons p rest ih =>
      obtain ⟨k', v'⟩ := p
      simp only [setKey]
      by_cases hk : k' = k
      · subst hk
        simp only [if_pos rfl, getKey]
        by_cases hv : k' = v
        · simp [hv]
        · simp [hv, getKey]
      · simp only [if_neg hk, getKey]
        by_cases hv : k' = v
        · subst hv
          have : ¬ k = k' := fun he => hk he.symm
          simp [this]
        · simp [hv, ih]

theorem getKey_isSome_of_mem_keys {c : Catalog} {k : String}
    (h : k ∈ keys c) : ∃ r, catGet c k = some r := by
  induction c with
  | nil => cases h
  | cons p rest ih =>
      obtain ⟨k', r'⟩ := p
      unfold catGet getKey
      by_cases hk : k' = k
      · exact ⟨r', by simp [hk]⟩
      · simp only [if_neg hk]
        rcases List.mem_cons.mp h with he | hm
        · exact absurd he.symm hk
        · exact ih hm

/-! ### Handler frame lemmas -/

theorem firmwareCheck_availableFirmware (st : ServerState) (blob : BlobStore)
    (req : CheckRequest) (now proto host : String) :
    ((firmwareCheck st blob req now proto host).2.1).availableFirmware =
      st.availableFirmware := by
  simp only [firmwareCheck]
  repeat' split
  all_goals simp

theorem release_preserves_catalog_entry (st : ServerState) (blob : BlobStore)
    (req : ReleaseRequest) (today : String) (v : String) (r : FirmwareRelease)
    (h : catGet st.availableFirmware v = some r) :
    catGet ((firmwareRelease st blob req today).2).availableFirmware v = some r := by
  cases hv : req.version with
  | none => simp [firmwareRelease, hv, h]
  | some version =>
    cases hf : req.filename with
    | none => simp [firmwareRelease, hv, hf, h]
    | some filename =>
      cases hc : req.changelog with
      | none => simp [firmwareRelease, hv, hf, hc, h]
      | some changelog =>
        simp only [firmwareRelease, hv, hf, hc]
        by_cases he : (version.isEmpty || filename.isEmpty || changelog.isEmpty) = true
        · simp [he, h]
        · simp only [Bool.not_eq_true] at he
          simp only [he, Bool.false_eq_true, if_false]
          by_cases hdup : (catGet st.availableFirmware version).isSome = true
          · simp [hdup, h]
          · simp only [Bool.not_eq_true] at hdup
            simp only [hdup, Bool.false_eq_true, if_false]
            by_cases hex : blob.existsFile filename = true
            · simp only [hex, Bool.not_true, Bool.false_eq_true, if_false]
              have hvv : version ≠ v := by
                intro he'
                rw [he', h] at hdup
                simp at hdup
              simp [catGet, getKey_setKey, hvv, h]
              exact h
            · simp only [Bool.not_eq_true] at hex
              simp [hex, h]

theorem step_preserves_catalog_entry (st : ServerState) (op : Op)
    (v : String) (r : FirmwareRelease)
    (h : catGet st.availableFirmware v = some r) :
    catGet ((step st op).availableFirmware) v = some r := by
  cases op with
  | check req now proto host blob =>
      rw [step, firmwareCheck_availableFirmware]
      exact h
  | download _ _ => exact h
  | adminDevices => exact h
  | release req today blob =>
      exact release_preserves_catalog_entry st blob req today v r h

theorem run_preserves_catalog_entry (ops : List Op) (st : ServerState)
    (v : String) (r : FirmwareRelease)
    (h : catGet st.availableFirmware v = some r) :
    catGet ((run st ops).availableFirmware) v = some r := by
  induction ops generalizing st with
  | nil => exact h
  | cons op rest ih => exact ih _ (step_preserves_catalog_entry st op v r h)

/-! ### `split(' ')` lemmas -/

theorem splitSpaces_ne_nil (l : List Char) : splitSpaces l ≠ [] := by
  cases l with
  | nil => simp [splitSpaces]
  | cons c cs =>
      simp only [splitSpaces]
      cases h : splitSpaces cs with
      | nil => simp
      | cons g gs => by_cases hc : c = ' ' <;> simp [hc]

theorem splitSpaces_no_space (t : List Char) (ht : (' ' : Char) ∉ t) :
    splitSpaces t = [t] := by
  induction t with
  | nil => rfl
  | cons c cs ih =>
      have hc : c ≠ ' ' := fun he => ht (he ▸ List.mem_cons_self _ _)
      have hcs := ih (fun hm => ht (List.mem_cons_of_mem _ hm))
      simp [splitSpaces, hcs, hc]

theorem splitSpaces_append (s t : List Char) (hs : (' ' : Char) ∉ s) :
    splitSpaces (s ++ ' ' :: t) = s :: splitSpaces t := by
  induction s with
  | nil =>
      simp only [List.nil_append, splitSpaces]
      cases h : splitSpaces t with
      | nil => exact absurd h (splitSpaces_ne_nil t)
      | cons g gs => simp
  | cons c cs ih =>
      have hc : c ≠ ' ' := fun he => hs (he ▸ List.mem_cons_self _ _)
      have hcs := ih (fun hm => hs (List.mem_cons_of_mem _ hm))
      simp [splitSpaces, hcs, hc]

end OTA

namespace OTA

/-! ## Claims -/

/-- C1: for every check request with device and version present, the update
decision is `needsUpdate = (reportedVersion < latestVersion)` under raw
lexicographic string ordering — every 200 body reports
`update_available = true` exactly when `jsLt version latest`, and the
up-to-date body is returned exactly when the reported version is not
lexicographically below the latest.  The witness instantiates the
non-semantic quirk: reporting "9.0.0" against a catalog whose lexicographic
maximum is "3.1.0" yields `update_available = false`. -/
theorem check_decision_is_lexicographic
    (st : ServerState) (blob : BlobStore) (req : CheckRequest)
    (now proto host device version L : String)
    (hd : req.device = some device) (hv : req.version = some version)
    (hde : device.isEmpty = false) (hve : version.isEmpty = false)
    (hL : latestKey st.availableFirmware = some L) :
    (∀ b, (firmwareCheck st blob req now proto host).1 = .ok b →
      (b.update_available = true ↔ jsLt version L = true)) ∧
    (((firmwareCheck st blob req now proto host).1 =
        .ok ⟨false, L, "", "", false, none, none⟩) ↔ jsLt version L = false) := by
  obtain ⟨r, hr⟩ := getKey_isSome_of_mem_keys (latestKey_mem hL)
  constructor
  · intro b hb
    revert hb
    simp only [firmwareCheck, hd, hv, hde, hve, hL, hr, Bool.or_self, if_false]
    by_cases hlt : jsLt version L = true
    · by_cases hex : blob.existsFile r.filename = true
      · cases hgk : getKey blob.files r.filename with
        | none => simp [hlt, hex, hgk]
        | some info =>
            simp [hlt, hex, hgk]
            intro hb
            subst hb
            simp
      · simp [hlt, hex]
    · simp only [Bool.not_eq_true] at hlt
      simp [hlt]
      intro hb
      subst hb
      simp
  · simp only [firmwareCheck, hd, hv, hde, hve, hL, hr, Bool.or_self, if_false]
    by_cases hlt : jsLt version L = true
    · simp [hlt]
      by_cases hex : blob.existsFile r.filename = true
      · simp [hex]
        cases hgk : getKey blob.files r.filename with
        | none => simp
        | some info => simp
      · simp [hex]
    · simp only [Bool.not_eq_true] at hlt
      simp [hlt]

/-- C1 witness: against the three-entry catalog (lexicographic maximum
"3.1.0"), a device reporting "9.0.0" receives `update_available = false`
with empty download/checksum fields. -/
theorem check_decision_is_lexicographic_witness :
    (firmwareCheck ⟨[], catalog3⟩ ⟨[]⟩ ⟨some "D1", some "9.0.0", none, none⟩
        "t" "http" "h").1 =
      .ok ⟨false, "3.1.0", "", "", false, none, none⟩ :=
  (check_decision_is_lexicographic ⟨[], catalog3⟩ ⟨[]⟩
      ⟨some "D1", some "9.0.0", none, none⟩ "t" "http" "h" "D1" "9.0.0" "3.1.0"
      rfl rfl (by decide) (by decide) (by decide)).2.mpr (by decide)

/-- C2: for every non-empty catalog, `latest()` (the last element of the
JS-sorted key list) is the maximum version key under raw lexicographic
ordering of the version strings: it is a key, and every key is
`jsLe`-below it.  Repeated calls on a fixed catalog return the same
version because `latestKey` is a pure function of the catalog. -/
theorem latest_is_lex_max (c : Catalog) (h : c ≠ []) :
    ∃ m, latestKey c = some m ∧ m ∈ keys c ∧ ∀ k ∈ keys c, jsLe k m = true := by
  obtain ⟨m, hm⟩ := latestKey_isSome h
  exact ⟨m, hm, latestKey_mem hm, latestKey_isMax hm⟩

/-- C2 witness: on the catalog with keys 2.2.0 / 2.3.0 / 3.1.0 the latest
is "3.1.0"; with keys 10.0.0 / 2.0.0 the latest is "2.0.0" ("10.0.0" sorts
before "2.0.0" lexicographically). -/
theorem latest_is_lex_max_witness :
    latestKey catalog3 = some "3.1.0" ∧
    latestKey [("10.0.0", ⟨"a.bin", "2026-01-01", "x", false⟩),
               ("2.0.0", ⟨"b.bin", "2026-01-02", "y", false⟩)] = some "2.0.0" ∧
    (∃ m, latestKey catalog3 = some m ∧ m ∈ keys catalog3 ∧
      ∀ k ∈ keys catalog3, jsLe k m = true) :=
  ⟨by decide, by decide, latest_is_lex_max catalog3 (by decide)⟩

end OTA

namespace OTA

/-- C3 counterexample: after a successful publish of "1.0.0", a second
publish of the same version whose payload has an empty `changelog` yields
`MissingRequiredField`, not `DuplicateVersion` — so the second call does
NOT always yield `DuplicateVersion` regardless of payload. -/
theorem second_publish_not_always_duplicate :
    ((firmwareRelease ⟨[], initialFirmware⟩ ⟨[("f.bin", ⟨"m5", 7⟩)]⟩
        ⟨some "1.0.0", some "f.bin", some "first", none⟩ "2026-03-01").1 =
      .success "Firmware v1.0.0 released" "1.0.0" none) ∧
    ((firmwareRelease
        ((firmwareRelease ⟨[], initialFirmware⟩ ⟨[("f.bin", ⟨"m5", 7⟩)]⟩
            ⟨some "1.0.0", some "f.bin", some "first", none⟩ "2026-03-01").2)
        ⟨[("f.bin", ⟨"m5", 7⟩)]⟩
        ⟨some "1.0.0", some "f.bin", some "", none⟩ "2026-03-02").1 =
      .missingFields) ∧
    ReleaseResponse.missingFields ≠ ReleaseResponse.duplicateVersion := by
  refine ⟨by decide, by decide, by decide⟩

/-- C3 amended: validation is applied in a fixed order with the first
failing check winning — (1) version, filename, changelog present and
non-empty, else `MissingRequiredField` (400); (2) version not already a
catalog key, else `DuplicateVersion` (400); (3) blob store confirms the
filename exists, else `ArtifactMissing` (404).  A second publish of an
already-present version yields `DuplicateVersion` regardless of the rest
of the payload, PROVIDED its required fields are present and non-empty;
with a missing or empty required field the first check wins and the call
yields `MissingRequiredField` instead. -/
theorem release_validation_order (st : ServerState) (blob : BlobStore)
    (req : ReleaseRequest) (today : String) :
    ((jsPresent req.version && jsPresent req.filename && jsPresent req.changelog) = false →
      (firmwareRelease st blob req today).1 = .missingFields) ∧
    (∀ version, req.version = some version →
      (jsPresent req.version && jsPresent req.filename && jsPresent req.changelog) = true →
      (catGet st.availableFirmware version).isSome = true →
      (firmwareRelease st blob req today).1 = .duplicateVersion) ∧
    (∀ version filename, req.version = some version → req.filename = some filename →
      (jsPresent req.version && jsPresent req.filename && jsPresent req.changelog) = true →
      (catGet st.availableFirmware version).isSome = false →
      blob.existsFile filename = false →
      (firmwareRelease st blob req today).1 = .artifactMissing) := by
  refine ⟨?_, ?_, ?_⟩
  · intro hmiss
    cases hv : req.version with
    | none => simp [firmwareRelease, hv]
    | some version =>
      cases hf : req.filename with
      | none => simp [firmwareRelease, hv, hf]
      | some filename =>
        cases hc : req.changelog with
        | none => simp [firmwareRelease, hv, hf, hc]
        | some changelog =>
          rw [hv, hf, hc] at hmiss
          simp only [jsPresent] at hmiss
          cases hve : version.isEmpty <;> cases hfe : filename.isEmpty <;>
            cases hce : changelog.isEmpty <;>
            simp_all [firmwareRelease, hv, hf, hc]
  · intro version hv hall hdup
    cases hf : req.filename with
    | none => rw [hf] at hall; simp [jsPresent] at hall
    | some filename =>
      cases hc : req.changelog with
      | none => rw [hc] at hall; simp [jsPresent] at hall
      | some changelog =>
        rw [hv, hf, hc] at hall
        simp only [jsPresent] at hall
        cases hve : version.isEmpty <;> cases hfe : filename.isEmpty <;>
          cases hce : changelog.isEmpty <;>
          simp_all [firmwareRelease, hv, hf, hc]
  · intro version filename hv hf hall hdup hex
    cases hc : req.changelog with
    | none => rw [hc] at hall; simp [jsPresent] at hall
    | some changelog =>
      rw [hv, hf, hc] at hall
      simp only [jsPresent] at hall
      cases hve : version.isEmpty <;> cases hfe : filename.isEmpty <;>
        cases hce : changelog.isEmpty <;>
        simp_all [firmwareRelease, hv, hf, hc]

/-- C3 witness: a second publish of the already-present version "2.3.0"
with full non-empty payload yields `DuplicateVersion` even though its
filename is absent from the blob store (the duplicate check wins over the
artifact check). -/
theorem release_validation_order_witness :
    (firmwareRelease ⟨[], catalog3⟩ ⟨[]⟩
        ⟨some "2.3.0", some "other.bin", some "changed", some true⟩
        "2026-03-01").1 = .duplicateVersion :=
  (release_validation_order ⟨[], catalog3⟩ ⟨[]⟩
      ⟨some "2.3.0", some "other.bin", some "changed", some true⟩
      "2026-03-01").2.1 "2.3.0" rfl (by decide) (by decide)

/-- C4 counterexample: a release that fails with `DuplicateVersion` leaves
the catalog unchanged, but the attempted version IS a catalog key
afterward (it already was one) — refuting "the attempted version is not a
catalog key afterward" for every failed release. -/
theorem failed_duplicate_release_version_still_key :
    (firmwareRelease ⟨[], catalog3⟩ ⟨[]⟩
        ⟨some "2.3.0", some "g.bin", some "x", none⟩ "2026-03-01").1.status ≠ 200 ∧
    (catGet ((firmwareRelease ⟨[], catalog3⟩ ⟨[]⟩
        ⟨some "2.3.0", some "g.bin", some "x", none⟩
        "2026-03-01").2).availableFirmware "2.3.0").isSome = true := by
  refine ⟨by decide, by decide⟩

/-- C4 amended: every failing release (`MissingRequiredField`,
`DuplicateVersion` or `ArtifactMissing`, i.e. any non-200 response) leaves
the entire server state — in particular the catalog — unchanged, because
all validation happens before the insert; consequently a version that was
not a catalog key before the attempt is not one afterward.  (A version
that already was a key stays one: that is what made the release fail with
`DuplicateVersion`.) -/
theorem failed_release_state_unchanged (st : ServerState) (blob : BlobStore)
    (req : ReleaseRequest) (today : String)
    (h : (firmwareRelease st blob req today).1.status ≠ 200) :
    (firmwareRelease st blob req today).2 = st ∧
    ∀ v, catGet st.availableFirmware v = none →
      catGet ((firmwareRelease st blob req today).2).availableFirmware v = none := by
  have hst : (firmwareRelease st blob req today).2 = st := by
    revert h
    simp only [firmwareRelease]
    repeat' split
    all_goals simp [ReleaseResponse.status]
  exact ⟨hst, fun v hv => by rw [hst]; exact hv⟩

/-- C4 witness: a release rejected with `ArtifactMissing` (blob store does
not contain "nope.bin") leaves the state unchanged and the attempted
version "9.9.9" absent from the catalog. -/
theorem failed_release_state_unchanged_witness :
    (firmwareRelease ⟨[], initialFirmware⟩ ⟨[]⟩
        ⟨some "9.9.9", some "nope.bin", some "x", none⟩ "2026-03-01").2 =
      (⟨[], initialFirmware⟩ : ServerState) ∧
    catGet ((firmwareRelease ⟨[], initialFirmware⟩ ⟨[]⟩
        ⟨some "9.9.9", some "nope.bin", some "x", none⟩
        "2026-03-01").2).availableFirmware "9.9.9" = none :=
  ⟨(failed_release_state_unchanged ⟨[], initialFirmware⟩ ⟨[]⟩
      ⟨some "9.9.9", some "nope.bin", some "x", none⟩ "2026-03-01" (by decide)).1,
   (failed_release_state_unchanged ⟨[], initialFirmware⟩ ⟨[]⟩
      ⟨some "9.9.9", some "nope.bin", some "x", none⟩ "2026-03-01" (by decide)).2
     "9.9.9" (by decide)⟩

end OTA

namespace OTA

/-- Catalog whose lexicographically greatest release ("3.1.0") is marked
mandatory — used to witness that the up-to-date response still reports
`mandatory = false`. -/
def catalogMandatoryLatest : Catalog :=
  [("2.2.0", ⟨"a.bin", "2026-01-15", "init", false⟩),
   ("3.1.0", ⟨"c.bin", "2026-02-16", "new", true⟩)]

/-- C5: whenever the reported version is not lexicographically below the
latest version, the check endpoint returns exactly
`{update_available: false, latest_version, download_url: "", checksum: "",
mandatory: false}` (no `changelog`/`file_size` fields), with the device
record written as its only state effect and an empty blob-operation trace:
no existence check, checksum computation or size query is performed.
`mandatory` is the literal `false`, independent of the latest release's
own mandatory flag. -/
theorem check_up_to_date_exact_response
    (st : ServerState) (blob : BlobStore) (req : CheckRequest)
    (now proto host device version L : String)
    (hd : req.device = some device) (hv : req.version = some version)
    (hde : device.isEmpty = false) (hve : version.isEmpty = false)
    (hL : latestKey st.availableFirmware = some L)
    (hlt : jsLt version L = false) :
    firmwareCheck st blob req now proto host =
      (.ok ⟨false, L, "", "", false, none, none⟩,
       { st with devicesDb := setKey st.devicesDb device ⟨now, version, req.rssi⟩ },
       ([] : List BlobOp)) := by
  obtain ⟨r, hr⟩ := getKey_isSome_of_mem_keys (latestKey_mem hL)
  simp [firmwareCheck, hd, hv, hde, hve, hL, hr, hlt]

/-- C5 witness: against `catalogMandatoryLatest` (latest "3.1.0" is
mandatory and its artifact exists with size 7), a device reporting "9.0.0"
gets exactly the up-to-date body with `mandatory = false`, the device
record is stored, and no blob operation is performed. -/
theorem check_up_to_date_exact_response_witness :
    firmwareCheck ⟨[], catalogMandatoryLatest⟩ ⟨[("c.bin", ⟨"m", 7⟩)]⟩
        ⟨some "D1", some "9.0.0", none, some 42⟩ "t" "http" "h" =
      (.ok ⟨false, "3.1.0", "", "", false, none, none⟩,
       { devicesDb := setKey [] "D1" ⟨"t", "9.0.0", some 42⟩,
         availableFirmware := catalogMandatoryLatest },
       ([] : List BlobOp)) ∧
    (catGet catalogMandatoryLatest "3.1.0").map FirmwareRelease.mandatory =
      some true :=
  ⟨check_up_to_date_exact_response ⟨[], catalogMandatoryLatest⟩
      ⟨[("c.bin", ⟨"m", 7⟩)]⟩ ⟨some "D1", some "9.0.0", none, some 42⟩
      "t" "http" "h" "D1" "9.0.0" "3.1.0" rfl rfl (by decide) (by decide)
      (by decide) (by decide),
   by decide⟩

/-- C6: a successful publish of a fresh version `v` makes `get(v)` return
exactly the published record (same filename, changelog, mandatory, with
the server-clock date), and `get(v)` keeps returning that record after any
further sequence of requests — the catalog has no update or delete
operation. -/
theorem publish_then_get_roundtrip_persistent
    (st : ServerState) (blob : BlobStore) (v f c : String) (m : Option Bool)
    (today : String)
    (hvp : v.isEmpty = false) (hfp : f.isEmpty = false) (hcp : c.isEmpty = false)
    (hnew : catGet st.availableFirmware v = none)
    (hblob : blob.existsFile f = true) :
    (firmwareRelease st blob ⟨some v, some f, some c, m⟩ today).1 =
      .success ("Firmware v" ++ v ++ " released") v none ∧
    catGet ((firmwareRelease st blob ⟨some v, some f, some c, m⟩ today).2).availableFirmware v =
      some ⟨f, today, c, m.getD false⟩ ∧
    ∀ ops : List Op,
      catGet ((run ((firmwareRelease st blob ⟨some v, some f, some c, m⟩ today).2) ops).availableFirmware) v =
        some ⟨f, today, c, m.getD false⟩ := by
  have h1 : firmwareRelease st blob ⟨some v, some f, some c, m⟩ today =
      (.success ("Firmware v" ++ v ++ " released") v none,
       { st with availableFirmware :=
           setKey st.availableFirmware v ⟨f, today, c, m.getD false⟩ }) := by
    simp [firmwareRelease, hvp, hfp, hcp, hnew, hblob]
  have h2 : catGet ((firmwareRelease st blob ⟨some v, some f, some c, m⟩ today).2).availableFirmware v =
      some ⟨f, today, c, m.getD false⟩ := by
    rw [h1]
    simp [catGet, getKey_setKey]
  exact ⟨by rw [h1], h2, fun ops => run_preserves_catalog_entry ops _ v _ h2⟩

/-- Sample request sequence for the C6 witness: a device check, a further
release, a download and a registry listing, none of which may disturb the
previously published "1.0.0" entry. -/
def sampleOps : List Op :=
  [.check ⟨some "D2", some "0.9.0", none, none⟩ "t2" "http" "h" ⟨[]⟩,
   .release ⟨some "4.0.0", some "g.bin", some "more", some true⟩ "2026-03-02"
     ⟨[("g.bin", ⟨"mg", 9⟩)]⟩,
   .download "1.0.0" ⟨[]⟩,
   .adminDevices]

/-- C6 witness: publishing "1.0.0" into the initial catalog succeeds, and
after the sample request sequence `get("1.0.0")` still returns exactly the
published record. -/
theorem publish_then_get_roundtrip_witness :
    (firmwareRelease ⟨[], initialFirmware⟩ ⟨[("f.bin", ⟨"mf", 7⟩)]⟩
        ⟨some "1.0.0", some "f.bin", some "notes", none⟩ "2026-03-01").1 =
      .success "Firmware v1.0.0 released" "1.0.0" none ∧
    catGet ((run ((firmwareRelease ⟨[], initialFirmware⟩ ⟨[("f.bin", ⟨"mf", 7⟩)]⟩
        ⟨some "1.0.0", some "f.bin", some "notes", none⟩ "2026-03-01").2)
        sampleOps).availableFirmware) "1.0.0" =
      some ⟨"f.bin", "2026-03-01", "notes", false⟩ :=
  ⟨(publish_then_get_roundtrip_persistent ⟨[], initialFirmware⟩
      ⟨[("f.bin", ⟨"mf", 7⟩)]⟩ "1.0.0" "f.bin" "notes" none "2026-03-01"
      (by decide) (by decide) (by decide) (by decide) (by decide)).1,
   (publish_then_get_roundtrip_persistent ⟨[], initialFirmware⟩
      ⟨[("f.bin", ⟨"mf", 7⟩)]⟩ "1.0.0" "f.bin" "notes" none "2026-03-01"
      (by decide) (by decide) (by decide) (by decide) (by decide)).2.2 sampleOps⟩

/-- C7 counterexample: a check request with `device` present but `version`
missing fails with `MissingParameter` and writes NO device record — the
side effect is not performed on that outcome, refuting "always performed
regardless of outcome (including MissingParameter)". -/
theorem check_missing_version_writes_no_record :
    (firmwareCheck ⟨[], initialFirmware⟩ ⟨[]⟩ ⟨some "D1", none, none, some 1⟩
        "t" "http" "h").1 = .missingParam ∧
    ((firmwareCheck ⟨[], initialFirmware⟩ ⟨[]⟩ ⟨some "D1", none, none, some 1⟩
        "t" "http" "h").2.1).devicesDb = [] := by
  refine ⟨by decide, by decide⟩

/-- C7 amended: whenever `device` and `version` are both present and
non-empty, the device record (current timestamp, reported version, rssi if
provided) is written for every outcome of the call — including
`ArtifactMissing` and both update decisions; when either parameter is
missing or empty, the handler returns `MissingParameter` first and the
state is left entirely unchanged (no record is written). -/
theorem check_device_record_effect
    (st : ServerState) (blob : BlobStore) (req : CheckRequest)
    (now proto host : String) :
    (∀ device version, req.device = some device → req.version = some version →
      device.isEmpty = false → version.isEmpty = false →
      getKey ((firmwareCheck st blob req now proto host).2.1).devicesDb device =
        some ⟨now, version, req.rssi⟩) ∧
    ((jsPresent req.device && jsPresent req.version) = false →
      (firmwareCheck st blob req now proto host).2.1 = st ∧
      (firmwareCheck st blob req now proto host).1 = .missingParam) := by
  constructor
  · intro device version hd hv hde hve
    simp only [firmwareCheck, hd, hv, hde, hve, Bool.or_self, if_false]
    repeat' split
    all_goals simp_all [getKey_setKey]
  · intro hmiss
    cases hd : req.device with
    | none => simp [firmwareCheck, hd]
    | some device =>
      cases hv : req.version with
      | none => simp [firmwareCheck, hd, hv]
      | some version =>
        rw [hd, hv] at hmiss
        simp only [jsPresent, Bool.and_eq_false_iff, Bool.not_eq_false'] at hmiss
        rcases hmiss with h | h <;> simp [firmwareCheck, hd, hv, h]

/-- C7 witness: a check that ends in `ArtifactMissing` (the latest
artifact is absent from the blob store) still records the device's
timestamp, version and rssi. -/
theorem check_device_record_effect_witness :
    getKey ((firmwareCheck ⟨[], catalog3⟩ ⟨[]⟩
        ⟨some "D1", some "2.2.0", none, some (-70)⟩ "t" "http" "h").2.1).devicesDb
        "D1" = some ⟨"t", "2.2.0", some (-70)⟩ ∧
    (firmwareCheck ⟨[], catalog3⟩ ⟨[]⟩
        ⟨some "D1", some "2.2.0", none, some (-70)⟩ "t" "http" "h").1.status = 404 :=
  ⟨(check_device_record_effect ⟨[], catalog3⟩ ⟨[]⟩
      ⟨some "D1", some "2.2.0", none, some (-70)⟩ "t" "http" "h").1
      "D1" "2.2.0" rfl rfl (by decide) (by decide),
   by decide⟩

end OTA

namespace OTA

/-- C8 counterexample: in the local-filesystem variant a fully valid
release is accepted, but the acceptance body is
`{status, message, version}` with NO file-size field (`none`), even though
the blob store observes the artifact's size (42 bytes here) — refuting
"the response is an acceptance that carries the observed artifact size"
for every passing release. -/
theorem local_release_acceptance_carries_no_size :
    (firmwareRelease ⟨[], initialFirmware⟩ ⟨[("f.bin", ⟨"d41d8cd9", 42⟩)]⟩
        ⟨some "9.9.9", some "f.bin", some "new", none⟩ "2026-03-01").1 =
      .success "Firmware v9.9.9 released" "9.9.9" none ∧
    getKey (BlobStore.files ⟨[("f.bin", ⟨"d41d8cd9", 42⟩)]⟩) "f.bin" =
      some ⟨"d41d8cd9", 42⟩ := by
  refine ⟨by decide, by decide⟩

/-- C8 amended: a release passing all three checks is inserted with
`release_date` equal to the current server-clock date (the request body
has no date field); the acceptance of the S3 variant carries the observed
artifact size (the HEAD `content-length`), while the acceptance of the
local-filesystem variant carries only status, message and version — no
size. -/
theorem release_success_date_and_size
    (st : ServerState) (blob : BlobStore) (v f c : String) (m : Option Bool)
    (today : String)
    (hvp : v.isEmpty = false) (hfp : f.isEmpty = false) (hcp : c.isEmpty = false)
    (hnew : catGet st.availableFirmware v = none) :
    (blob.existsFile f = true →
      firmwareRelease st blob ⟨some v, some f, some c, m⟩ today =
        (.success ("Firmware v" ++ v ++ " released") v none,
         { st with availableFirmware :=
             setKey st.availableFirmware v ⟨f, today, c, m.getD false⟩ })) ∧
    (∀ len etag,
      firmwareReleaseS3 st ⟨some v, some f, some c, m⟩ today (.response 200 len etag) =
        (.success ("Firmware v" ++ v ++ " released") v (some len),
         { st with availableFirmware :=
             setKey st.availableFirmware v ⟨f, today, c, m.getD false⟩ })) := by
  constructor
  · intro hblob
    simp [firmwareRelease, hvp, hfp, hcp, hnew, hblob]
  · intro len etag
    simp [firmwareReleaseS3, checkS3File, hvp, hfp, hcp, hnew]

/-- C8 witness: an S3-variant release of "9.9.9" whose HEAD reports 200
with content-length 1234 is accepted with `file_size = 1234` and inserted
with `release_date = "2026-03-05"`, the server-clock date passed in. -/
theorem release_success_date_and_size_witness :
    firmwareReleaseS3 ⟨[], initialFirmware⟩
        ⟨some "9.9.9", some "s3f.bin", some "n", none⟩ "2026-03-05"
        (.response 200 1234 (some "etag")) =
      (.success "Firmware v9.9.9 released" "9.9.9" (some 1234),
       { devicesDb := [],
         availableFirmware :=
           setKey initialFirmware "9.9.9" ⟨"s3f.bin", "2026-03-05", "n", false⟩ }) :=
  (release_success_date_and_size ⟨[], initialFirmware⟩ ⟨[]⟩ "9.9.9" "s3f.bin"
      "n" none "2026-03-05" (by decide) (by decide) (by decide) (by decide)).2
    1234 (some "etag")

/-- C9 counterexample: in the S3 variant, a network error during the
existence HEAD request is resolved as `{exists: false}` and the check
request fails 404 "Firmware file not found" — the I/O failure is silently
converted into a not-found outcome instead of propagating as a 500
`TransientIO`; the S3 release handler converts the same failure to its
404 `ArtifactMissing` as well. -/
theorem s3_existence_io_error_converted_to_404 :
    (firmwareCheckS3 ⟨[], catalog3⟩ ⟨some "D1", some "2.2.0", none, none⟩ "t"
        .netError .netError (fun _ => "")).1 = .notFound "Firmware file not found" ∧
    (firmwareCheckS3 ⟨[], catalog3⟩ ⟨some "D1", some "2.2.0", none, none⟩ "t"
        .netError .netError (fun _ => "")).1.status = 404 ∧
    (firmwareReleaseS3 ⟨[], catalog3⟩ ⟨some "9.9.9", some "f.bin", some "x", none⟩
        "2026-03-01" .netError).1.status = 404 := by
  refine ⟨by decide, by decide, by decide⟩

/-- C9 amended: blob-store I/O failures are not retried, but only a
failure during CHECKSUM computation propagates as a 500-class failure
("Internal server error"); a failure during the existence HEAD check is
silently converted into the 404 not-found outcome, in both the check and
the release paths of the S3 variant. -/
theorem s3_io_failure_handling
    (st : ServerState) (req : CheckRequest) (now : String)
    (device version L : String)
    (hd : req.device = some device) (hv : req.version = some version)
    (hde : device.isEmpty = false) (hve : version.isEmpty = false)
    (hL : latestKey st.availableFirmware = some L)
    (hlt : jsLt version L = true) :
    (∀ getRes md5, (firmwareCheckS3 st req now .netError getRes md5).1 =
        .notFound "Firmware file not found") ∧
    (∀ len etag md5,
      (firmwareCheckS3 st req now (.response 200 len etag) .netError md5).1 =
        .serverError "Internal server error") ∧
    (∀ (st2 : ServerState) (v f c : String) (m : Option Bool) (today : String),
      v.isEmpty = false → f.isEmpty = false → c.isEmpty = false →
      catGet st2.availableFirmware v = none →
      (firmwareReleaseS3 st2 ⟨some v, some f, some c, m⟩ today .netError).1 =
        .artifactMissing) := by
  obtain ⟨r, hr⟩ := getKey_isSome_of_mem_keys (latestKey_mem hL)
  refine ⟨?_, ?_, ?_⟩
  · intro getRes md5
    simp [firmwareCheckS3, hd, hv, hde, hve, hL, hr, hlt, checkS3File]
  · intro len etag md5
    simp [firmwareCheckS3, hd, hv, hde, hve, hL, hr, hlt, checkS3File, calculateS3Md5]
  · intro st2 v f c m today h1 h2 h3 h4
    simp [firmwareReleaseS3, h1, h2, h3, h4, checkS3File]

/-- C9 witness: with the HEAD succeeding (200, 42 bytes) but the checksum
GET failing with a network error, the S3 check request fails 500. -/
theorem s3_io_failure_handling_witness :
    (firmwareCheckS3 ⟨[], catalog3⟩ ⟨some "D1", some "2.2.0", none, none⟩ "t"
        (.response 200 42 none) .netError (fun _ => "")).1 =
      .serverError "Internal server error" :=
  (s3_io_failure_handling ⟨[], catalog3⟩ ⟨some "D1", some "2.2.0", none, none⟩
      "t" "D1" "2.2.0" "3.1.0" rfl rfl (by decide) (by decide) (by decide)
      (by decide)).2.1 42 none (fun _ => "")

/-- C10: the middleware accepts exactly the two-part headers
`"<scheme> <token>"` whose scheme lowercases to "bearer" (any casing
pattern) and whose token is in the allow-set; a header that does not split
into exactly two space-separated parts is rejected with 401. -/
theorem verifyApiKey_bearer_scheme_case_insensitive
    (validKeys : List String) (scheme token : String)
    (hsch : scheme.data.map Char.toLower = "bearer".data)
    (hss : (' ' : Char) ∉ scheme.data) (hst : (' ' : Char) ∉ token.data)
    (htok : validKeys.contains token = true) :
    verifyApiKey validKeys (some (scheme ++ " " ++ token)) = .authed token ∧
    ∀ auth : String, (splitSpaces auth.data).length ≠ 2 →
      (verifyApiKey validKeys (some auth)).status = 401 := by
  constructor
  · have hdata : (scheme ++ " " ++ token).data = scheme.data ++ ' ' :: token.data := by
      simp [String.data_append]
    simp only [verifyApiKey, hdata]
    rw [splitSpaces_append _ _ hss, splitSpaces_no_space _ hst]
    simp [hsch, htok]
    have heta : (String.mk token.data) = token := rfl
    rw [heta]
    simpa using htok
  · intro auth hlen
    by_cases hemp : auth.data.isEmpty = true
    · simp [verifyApiKey, hemp, AuthResult.status]
    · simp only [verifyApiKey, Bool.not_eq_true] at hemp ⊢
      rw [hemp]
      cases h : splitSpaces auth.data with
      | nil => exact absurd h (splitSpaces_ne_nil _)
      | cons g gs =>
          cases gs with
          | nil => simp [AuthResult.status]
          | cons g2 gs2 =>
              cases gs2 with
              | nil => rw [h] at hlen; simp at hlen
              | cons g3 gs3 => simp [AuthResult.status]

/-- C10 witness: "BEARER test123" (upper-case scheme) authenticates
against the fixed allow-set, while the three-part header "Bearer a b"
is rejected 401. -/
theorem verifyApiKey_bearer_witness :
    verifyApiKey VALID_API_KEYS (some ("BEARER" ++ " " ++ "test123")) =
      .authed "test123" ∧
    (verifyApiKey VALID_API_KEYS (some "Bearer a b")).status = 401 :=
  ⟨(verifyApiKey_bearer_scheme_case_insensitive VALID_API_KEYS "BEARER"
      "test123" (by decide) (by decide) (by decide) (by decide)).1,
   (verifyApiKey_bearer_scheme_case_insensitive VALID_API_KEYS "BEARER"
      "test123" (by decide) (by decide) (by decide) (by decide)).2
     "Bearer a b" (by decide)⟩

end OTA
